import Mathlib

/-!
Shallow embedding of `src/RepoActivity.Octokit/PRCycleTime.py`.

The script runs five sequential metric-collection loops over a paginated
search result (`for pr in prs:`). Each loop pulls one item at a time,
breaks when a sample counter has reached a cap (`if count >= max_sample:
break`, checked right after pulling an item), fetches a detail record,
extracts an observation, and prints a progress line whenever the loop's
counter is divisible by 50. We model timestamps as rationals (seconds
since epoch), the lazy iterator as a list consumed from the front, and
each loop as a step function on an explicit state plus a driver that also
counts how many items were pulled from the iterator and how many were
processed (detail-fetched).
-/

namespace PRCycleTime

/-! ### Metric 2: PR cycle time (script lines 28-49) -/

/-- Detail record for the cycle-time loop: `pr_obj.created_at` and the
optional `pr_obj.merged_at` (line 38 tests its truthiness). Timestamps
are rationals, in seconds. -/
structure CyclePR where
  created_at : ℚ
  merged_at : Option ℚ
deriving DecidableEq

/-- `(pr_obj.merged_at - pr_obj.created_at).days` (line 39): Python's
`timedelta.days` is the floor of the total duration in days, i.e. the
sub-day remainder is discarded for nonnegative durations. -/
def cycleDays (created merged : ℚ) : ℤ :=
  ⌊(merged - created) / 86400⌋

/-- Mutable state of the cycle-time loop: the accumulator `cycle_times`,
the counter `count`, and the list of counter values printed by the
progress lines (line 44), recording the observable output. -/
structure CycleState where
  cycle_times : List ℤ
  count : ℕ
  progress : List ℕ
deriving DecidableEq

def initCycleState : CycleState := ⟨[], 0, []⟩

/-- One iteration body of the cycle-time loop (lines 37-44): if
`pr_obj.merged_at` is truthy, append `(merged_at - created_at).days` and
increment `count`; then print a progress line when `count % 50 == 0`. -/
def cycleStep (s : CycleState) (pr : CyclePR) : CycleState :=
  let s1 :=
    match pr.merged_at with
    | some m =>
        { s with cycle_times := s.cycle_times ++ [cycleDays pr.created_at m],
                 count := s.count + 1 }
    | none => s
  if s1.count % 50 = 0 then { s1 with progress := s1.progress ++ [s1.count] } else s1

/-- The cycle-time `for pr in prs:` loop (lines 32-44). Returns the final
state, the number of items pulled from the iterator, and the number of
items processed (i.e. for which the loop body past the cap check ran,
which is where `repo.get_pull` is called). Pulling an item and then
hitting `if count >= max_sample: break` counts as one pull and zero
processing, matching the source's check-after-pull ordering. -/
def cycleRun (cap : ℕ) : CycleState → List CyclePR → CycleState × ℕ × ℕ
  | s, [] => (s, 0, 0)
  | s, pr :: rest =>
    if cap ≤ s.count then (s, 1, 0)
    else
      ((cycleRun cap (cycleStep s pr) rest).1,
       (cycleRun cap (cycleStep s pr) rest).2.1 + 1,
       (cycleRun cap (cycleStep s pr) rest).2.2 + 1)

/-! ### Metric 3: PR response time (script lines 54-91) -/

/-- Detail record for the response-time loop: creation time, the creation
times of the issue comments in API order (`comments[0]` is the first
comment, line 72), and the submission times of the reviews in API order
(`reviews[0].submitted_at`, line 77). -/
structure ResponsePR where
  created_at : ℚ
  comments : List ℚ
  reviews : List ℚ
deriving DecidableEq

/-- Lines 67-79: `first_response` starts as `comments[0].created_at` when
comments exist; then, when reviews exist, it is replaced by
`reviews[0].submitted_at` if there was no first response yet or the first
review is strictly earlier. -/
def firstResponse (pr : ResponsePR) : Option ℚ :=
  let first_response := pr.comments.head?
  match pr.reviews.head? with
  | none => first_response
  | some first_review =>
    match first_response with
    | none => some first_review
    | some c => if first_review < c then some first_review else first_response

structure ResponseState where
  response_times : List ℚ
  count : ℕ
  progress : List ℕ
deriving DecidableEq

def initResponseState : ResponseState := ⟨[], 0, []⟩

/-- One iteration body of the response-time loop (lines 66-87): when a
first response exists and is strictly later than `created_at`, append the
elapsed time in hours (`total_seconds() / 3600`); then increment `count`
unconditionally and print a progress line when `count % 50 == 0`. -/
def responseStep (s : ResponseState) (pr : ResponsePR) : ResponseState :=
  let s1 :=
    match firstResponse pr with
    | some fr =>
        if pr.created_at < fr then
          { s with response_times := s.response_times ++ [(fr - pr.created_at) / 3600] }
        else s
    | none => s
  let s2 := { s1 with count := s1.count + 1 }
  if s2.count % 50 = 0 then { s2 with progress := s2.progress ++ [s2.count] } else s2

/-- The response-time `for pr in prs:` loop (lines 62-87), with the same
(state, pulled, processed) driver shape as `cycleRun`. -/
def responseRun (cap : ℕ) : ResponseState → List ResponsePR → ResponseState × ℕ × ℕ
  | s, [] => (s, 0, 0)
  | s, pr :: rest =>
    if cap ≤ s.count then (s, 1, 0)
    else
      ((responseRun cap (responseStep s pr) rest).1,
       (responseRun cap (responseStep s pr) rest).2.1 + 1,
       (responseRun cap (responseStep s pr) rest).2.2 + 1)

/-! ### Metric 4: PR iteration count (script lines 96-117) -/

structure IterationPR where
  commits : ℕ
deriving DecidableEq

structure IterationState where
  iteration_counts : List ℕ
  count : ℕ
  progress : List ℕ
deriving DecidableEq

/-- One iteration body of the iteration-count loop (lines 108-113):
append `pr_obj.commits` and increment `count` for every item pulled,
unconditionally; progress line when `count % 50 == 0`. -/
def iterationStep (s : IterationState) (pr : IterationPR) : IterationState :=
  let s1 := { s with iteration_counts := s.iteration_counts ++ [pr.commits],
                     count := s.count + 1 }
  if s1.count % 50 = 0 then { s1 with progress := s1.progress ++ [s1.count] } else s1

structure DepthPR where
  comments : ℕ
  review_comments : ℕ
deriving DecidableEq

structure DepthState where
  total_comments : ℕ
  total_prs : ℕ
  progress : List ℕ
deriving DecidableEq

/-- One iteration body of the comment-depth loop (lines 166-171): add
`pr_obj.comments + pr_obj.review_comments` to the running total and
increment `total_prs` for every item pulled; progress line when
`total_prs % 50 == 0`. -/
def depthStep (s : DepthState) (pr : DepthPR) : DepthState :=
  let s1 := { s with total_comments := s.total_comments + (pr.comments + pr.review_comments),
                     total_prs := s.total_prs + 1 }
  if s1.total_prs % 50 = 0 then { s1 with progress := s1.progress ++ [s1.total_prs] } else s1

/-- Failures the summary code can raise: `statistics.StatisticsError` on
an empty sequence, `ZeroDivisionError` on division by zero. -/
inductive PyError
  | statisticsError
  | zeroDivisionError
deriving DecidableEq

/-- Python's built-in `sorted` on numbers: sort ascending. -/
def pySorted (l : List ℚ) : List ℚ :=
  l.insertionSort (· ≤ ·)

/-- `statistics.median`: raise on empty data, else sort; for odd length
return the middle element, for even length the average of the two middle
elements. -/
def pyMedian (l : List ℚ) : Except PyError ℚ :=
  if l = [] then .error .statisticsError
  else
    let s := pySorted l
    let n := l.length
    if n % 2 = 1 then .ok (s.getD (n / 2) 0)
    else .ok ((s.getD (n / 2 - 1) 0 + s.getD (n / 2) 0) / 2)

/-- `statistics.mean`: raise on empty data, else the exact arithmetic
mean, sum divided by count. -/
def pyMean (l : List ℚ) : Except PyError ℚ :=
  if l = [] then .error .statisticsError
  else .ok (l.sum / l.length)

/-- Lines 46-49: `if cycle_times:` — when the accumulator is empty the
whole summary block is skipped (result `ok none`, no output and no
error); otherwise median, mean and sample size are computed. -/
def cycleSummaryOut (l : List ℚ) : Except PyError (Option (ℚ × ℚ × ℕ)) :=
  if l = [] then .ok none
  else do
    let md ← pyMedian l
    let mn ← pyMean l
    .ok (some (md, mn, l.length))

/-- Lines 89-91: `if response_times:` — skipped when empty; otherwise the
median and mean (which are in hours) are each divided by 24 for display
in days. -/
def responseSummaryOut (l : List ℚ) : Except PyError (Option (ℚ × ℚ)) :=
  if l = [] then .ok none
  else do
    let md ← pyMedian l
    let mn ← pyMean l
    .ok (some (md / 24, mn / 24))

/-- Lines 115-117: `if iteration_counts:` — skipped when empty; otherwise
mean and median of the commit counts. -/
def iterationSummaryOut (l : List ℚ) : Except PyError (Option (ℚ × ℚ)) :=
  if l = [] then .ok none
  else do
    let mn ← pyMean l
    let md ← pyMedian l
    .ok (some (mn, md))

/-- Python division of two integers, raising `ZeroDivisionError` when the
denominator is zero. -/
def pyDivNat (a b : ℕ) : Except PyError ℚ :=
  if b = 0 then .error .zeroDivisionError
  else .ok ((a : ℚ) / (b : ℚ))

/-- Line 147: `review_coverage = (multiple_reviewer_count / total_sampled) * 100`,
computed unconditionally — an empty sample raises. -/
def reviewCoverageOut (multiple_reviewer_count total_sampled : ℕ) : Except PyError ℚ := do
  let r ← pyDivNat multiple_reviewer_count total_sampled
  .ok (r * 100)

/-- Line 173: `avg_comments = total_comments / total_prs`, computed
unconditionally — an empty sample raises. -/
def commentDepthOut (total_comments total_prs : ℕ) : Except PyError ℚ :=
  pyDivNat total_comments total_prs

/-- Whether a cycle-time item is extractable: `pr_obj.merged_at` truthy. -/
def cycleExtractable (pr : CyclePR) : Bool :=
  pr.merged_at.isSome

end PRCycleTime

namespace PRCycleTime

/-! ### Helper lemmas about the cycle-time loop -/

lemma cycleStep_count (s : CycleState) (pr : CyclePR) :
    (cycleStep s pr).count = s.count + if cycleExtractable pr then 1 else 0 := by
  unfold cycleStep cycleExtractable
  cases pr.merged_at <;> dsimp <;> split <;> rfl

lemma cycleStep_times (s : CycleState) (pr : CyclePR) :
    (cycleStep s pr).cycle_times =
      s.cycle_times ++ (match pr.merged_at with
        | some m => [cycleDays pr.created_at m]
        | none => []) := by
  unfold cycleStep
  cases pr.merged_at <;> dsimp <;> split <;> simp

lemma cycleStep_of_merged (s : CycleState) (pr : CyclePR) (m : ℚ)
    (h : pr.merged_at = some m) :
    (cycleStep s pr).cycle_times = s.cycle_times ++ [cycleDays pr.created_at m] ∧
      (cycleStep s pr).count = s.count + 1 := by
  refine ⟨?_, ?_⟩
  · rw [cycleStep_times, h]
  · rw [cycleStep_count]
    unfold cycleExtractable
    rw [h]
    rfl

lemma cycleStep_of_unmerged (s : CycleState) (pr : CyclePR)
    (h : pr.merged_at = none) :
    (cycleStep s pr).cycle_times = s.cycle_times ∧
      (cycleStep s pr).count = s.count := by
  refine ⟨?_, ?_⟩
  · rw [cycleStep_times, h]; simp
  · rw [cycleStep_count]
    unfold cycleExtractable
    rw [h]
    rfl

lemma cycleRun_nil (cap : ℕ) (s : CycleState) : cycleRun cap s [] = (s, 0, 0) := rfl

lemma cycleRun_cons_break (cap : ℕ) (s : CycleState) (pr : CyclePR) (rest : List CyclePR)
    (h : cap ≤ s.count) : cycleRun cap s (pr :: rest) = (s, 1, 0) := by
  rw [cycleRun, if_pos h]

lemma cycleRun_cons_go (cap : ℕ) (s : CycleState) (pr : CyclePR) (rest : List CyclePR)
    (h : ¬ cap ≤ s.count) :
    cycleRun cap s (pr :: rest) =
      ((cycleRun cap (cycleStep s pr) rest).1,
       (cycleRun cap (cycleStep s pr) rest).2.1 + 1,
       (cycleRun cap (cycleStep s pr) rest).2.2 + 1) := by
  rw [cycleRun, if_neg h]

/-- The final counter of the cycle-time loop is the cap clipped against the
number of extractable (merged) items available. -/
lemma cycleRun_count (cap : ℕ) (prs : List CyclePR) : ∀ s : CycleState, s.count ≤ cap →
    (cycleRun cap s prs).1.count = min cap (s.count + prs.countP cycleExtractable) := by
  induction prs with
  | nil =>
    intro s h
    rw [cycleRun_nil]
    simp [Nat.min_eq_right h]
  | cons pr rest ih =>
    intro s h
    rcases Nat.lt_or_ge s.count cap with hlt | hge
    · have hb : ¬ cap ≤ s.count := Nat.not_le.mpr hlt
      rw [cycleRun_cons_go cap s pr rest hb]
      have hstep : (cycleStep s pr).count ≤ cap := by
        rw [cycleStep_count]
        split <;> omega
      rw [ih (cycleStep s pr) hstep, cycleStep_count, List.countP_cons]
      cases hx : cycleExtractable pr <;> simp [hx]
      all_goals omega
    · have heq : s.count = cap := Nat.le_antisymm h hge
      rw [cycleRun_cons_break cap s pr rest hge]
      show s.count = _
      rw [heq, Nat.min_eq_left (Nat.le_add_right cap _)]

/-- Once the prefix of length `j` already contains `cap` extractable items,
the loop pulls at most `j + 1` items and processes (detail-fetches) at
most `j` of them. -/
lemma cycleRun_pulled (cap : ℕ) (prs : List CyclePR) :
    ∀ (s : CycleState) (j : ℕ), cap ≤ s.count + (prs.take j).countP cycleExtractable →
      (cycleRun cap s prs).2.1 ≤ j + 1 ∧ (cycleRun cap s prs).2.2 ≤ j := by
  induction prs with
  | nil =>
    intro s j _
    rw [cycleRun_nil]
    exact ⟨Nat.zero_le _, Nat.zero_le _⟩
  | cons pr rest ih =>
    intro s j hj
    by_cases hb : cap ≤ s.count
    · rw [cycleRun_cons_break cap s pr rest hb]
      refine ⟨?_, ?_⟩ <;> simp
    · rw [cycleRun_cons_go cap s pr rest hb]
      cases j with
      | zero =>
        exfalso
        simp at hj
        omega
      | succ j' =>
        have hj' : cap ≤ (cycleStep s pr).count + (rest.take j').countP cycleExtractable := by
          rw [cycleStep_count]
          rw [List.take_succ_cons, List.countP_cons] at hj
          cases hx : cycleExtractable pr <;> simp [hx] at hj ⊢
          all_goals omega
        have := ih (cycleStep s pr) j' hj'
        exact ⟨by simp; omega, by simp; omega⟩

/-- The cycle-time loop preserves `count = length cycle_times`. -/
lemma cycleRun_count_len (cap : ℕ) (prs : List CyclePR) :
    ∀ s : CycleState, s.count = s.cycle_times.length →
      (cycleRun cap s prs).1.count = (cycleRun cap s prs).1.cycle_times.length := by
  induction prs with
  | nil => intro s h; rw [cycleRun_nil]; exact h
  | cons pr rest ih =>
    intro s h
    by_cases hb : cap ≤ s.count
    · rw [cycleRun_cons_break cap s pr rest hb]; exact h
    · rw [cycleRun_cons_go cap s pr rest hb]
      refine ih (cycleStep s pr) ?_
      rw [cycleStep_count, cycleStep_times]
      cases hx : pr.merged_at <;> simp [cycleExtractable, hx, h]

/-! ### Helper lemmas about the response-time loop -/

/-- The observation (zero or one elapsed-hours values) contributed by one
response-time item: present exactly when a first response exists and is
strictly later than the creation time. -/
def responseObs (pr : ResponsePR) : List ℚ :=
  match firstResponse pr with
  | some fr => if pr.created_at < fr then [(fr - pr.created_at) / 3600] else []
  | none => []

lemma responseStep_def (s : ResponseState) (pr : ResponsePR) :
    responseStep s pr =
      { response_times := s.response_times ++ responseObs pr,
        count := s.count + 1,
        progress :=
          if (s.count + 1) % 50 = 0 then s.progress ++ [s.count + 1] else s.progress } := by
  cases hfr : firstResponse pr with
  | none =>
    simp only [responseStep, responseObs, hfr]
    split <;> simp_all
  | some fr =>
    by_cases hlt : pr.created_at < fr <;>
      simp only [responseStep, responseObs, hfr, hlt, if_true, if_false] <;>
      split <;> simp_all

lemma responseStep_count (s : ResponseState) (pr : ResponsePR) :
    (responseStep s pr).count = s.count + 1 := by
  rw [responseStep_def]

lemma responseStep_times (s : ResponseState) (pr : ResponsePR) :
    (responseStep s pr).response_times = s.response_times ++ responseObs pr := by
  rw [responseStep_def]

lemma responseRun_nil (cap : ℕ) (s : ResponseState) : responseRun cap s [] = (s, 0, 0) := rfl

lemma responseRun_cons_break (cap : ℕ) (s : ResponseState) (pr : ResponsePR)
    (rest : List ResponsePR) (h : cap ≤ s.count) :
    responseRun cap s (pr :: rest) = (s, 1, 0) := by
  rw [responseRun, if_pos h]

lemma responseRun_cons_go (cap : ℕ) (s : ResponseState) (pr : ResponsePR)
    (rest : List ResponsePR) (h : ¬ cap ≤ s.count) :
    responseRun cap s (pr :: rest) =
      ((responseRun cap (responseStep s pr) rest).1,
       (responseRun cap (responseStep s pr) rest).2.1 + 1,
       (responseRun cap (responseStep s pr) rest).2.2 + 1) := by
  rw [responseRun, if_neg h]

/-- The response-time loop preserves `length response_times ≤ count`. -/
lemma responseRun_len_le (cap : ℕ) (prs : List ResponsePR) :
    ∀ s : ResponseState, s.response_times.length ≤ s.count →
      (responseRun cap s prs).1.response_times.length ≤ (responseRun cap s prs).1.count := by
  induction prs with
  | nil => intro s h; rw [responseRun_nil]; exact h
  | cons pr rest ih =>
    intro s h
    by_cases hb : cap ≤ s.count
    · rw [responseRun_cons_break cap s pr rest hb]; exact h
    · rw [responseRun_cons_go cap s pr rest hb]
      refine ih (responseStep s pr) ?_
      rw [responseStep_count, responseStep_times]
      have : (responseObs pr).length ≤ 1 := by
        unfold responseObs
        cases firstResponse pr <;> dsimp <;> [simp; split] <;> simp
      simp only [List.length_append]
      omega

lemma iterationStep_def (s : IterationState) (pr : IterationPR) :
    iterationStep s pr =
      { iteration_counts := s.iteration_counts ++ [pr.commits],
        count := s.count + 1,
        progress :=
          if (s.count + 1) % 50 = 0 then s.progress ++ [s.count + 1] else s.progress } := by
  unfold iterationStep
  split <;> simp_all

lemma depthStep_def (s : DepthState) (pr : DepthPR) :
    depthStep s pr =
      { total_comments := s.total_comments + (pr.comments + pr.review_comments),
        total_prs := s.total_prs + 1,
        progress :=
          if (s.total_prs + 1) % 50 = 0 then s.progress ++ [s.total_prs + 1]
          else s.progress } := by
  unfold depthStep
  split <;> simp_all

/-- Python's `sorted` output is the unique ≤-sorted permutation of its
input. -/
lemma pySorted_eq (l s : List ℚ) (hp : s.Perm l) (hs : s.Sorted (· ≤ ·)) :
    pySorted l = s := by
  refine List.eq_of_perm_of_sorted ?_ ?_ hs
  · exact (List.perm_insertionSort _ l).trans hp.symm
  · exact List.sorted_insertionSort _ l

lemma responseObs_len_le (pr : ResponsePR) : (responseObs pr).length ≤ 1 := by
  unfold responseObs
  cases firstResponse pr <;> dsimp <;> [simp; split] <;> simp

/-! ### Claim theorems -/

/-- C1 (counterexample): in the response-time loop, one item with no
comments and no reviews increments the counter without appending an
observation, so `collected_count == length(observations)` fails. -/
theorem c1_invariant_counterexample :
    ¬ ((responseRun 300 initResponseState [⟨0, [], []⟩]).1.count =
       (responseRun 300 initResponseState [⟨0, [], []⟩]).1.response_times.length) := by
  decide

/-- C1 (amended): the cycle-time and iteration-count loops preserve
`count = length(observations)` at every step and hence throughout a run;
the response-time loop counts every pulled item while appending
observations only for qualifying responses, so there only
`length(observations) ≤ count` holds throughout. -/
theorem c1_invariant_amended :
    (∀ (s : CycleState) (pr : CyclePR), s.count = s.cycle_times.length →
      (cycleStep s pr).count = (cycleStep s pr).cycle_times.length) ∧
    (∀ (cap : ℕ) (s : CycleState) (prs : List CyclePR), s.count = s.cycle_times.length →
      (cycleRun cap s prs).1.count = (cycleRun cap s prs).1.cycle_times.length) ∧
    (∀ (s : IterationState) (pr : IterationPR), s.count = s.iteration_counts.length →
      (iterationStep s pr).count = (iterationStep s pr).iteration_counts.length) ∧
    (∀ (s : ResponseState) (pr : ResponsePR), s.response_times.length ≤ s.count →
      (responseStep s pr).response_times.length ≤ (responseStep s pr).count) ∧
    (∀ (cap : ℕ) (s : ResponseState) (prs : List ResponsePR),
      s.response_times.length ≤ s.count →
      (responseRun cap s prs).1.response_times.length ≤ (responseRun cap s prs).1.count) := by
  refine ⟨?_, ?_, ?_, ?_, fun cap s prs h => responseRun_len_le cap prs s h⟩
  · intro s pr h
    rw [cycleStep_count, cycleStep_times]
    cases hx : pr.merged_at <;> simp [cycleExtractable, hx, h]
  · intro cap s prs h
    exact cycleRun_count_len cap prs s h
  · intro s pr h
    rw [iterationStep_def]
    simp [h]
  · intro s pr h
    rw [responseStep_count, responseStep_times]
    have := responseObs_len_le pr
    simp only [List.length_append]
    omega

/-- C1 (witness): the amended invariants applied to a concrete state and
item of each loop. -/
theorem c1_invariant_amended_witness :
    (cycleStep initCycleState ⟨0, some 86400⟩).count =
      (cycleStep initCycleState ⟨0, some 86400⟩).cycle_times.length ∧
    (responseStep initResponseState ⟨0, [], []⟩).response_times.length ≤
      (responseStep initResponseState ⟨0, [], []⟩).count := by
  exact ⟨c1_invariant_amended.1 initCycleState ⟨0, some 86400⟩ rfl,
    c1_invariant_amended.2.2.2.1 initResponseState ⟨0, [], []⟩ (by decide)⟩

/-- C2: under the count-only-successful policy of the cycle-time loop,
with at least `cap` extractable (merged) items the final counter is
exactly `cap`; with only `N < cap` extractable items it is `N`; and once
a prefix of `j` items contains `cap` extractable ones, at most `j + 1`
items are pulled from the iterator and at most `j` items are processed
(detail-fetched) — i.e. at most one extra item beyond the boundary is
pulled, and no item is processed after the counter reaches the cap. -/
theorem c2_cap_spec (cap : ℕ) (prs : List CyclePR) :
    (cap ≤ prs.countP cycleExtractable →
      (cycleRun cap initCycleState prs).1.count = cap) ∧
    (prs.countP cycleExtractable < cap →
      (cycleRun cap initCycleState prs).1.count = prs.countP cycleExtractable) ∧
    (∀ j : ℕ, cap ≤ (prs.take j).countP cycleExtractable →
      (cycleRun cap initCycleState prs).2.1 ≤ j + 1 ∧
      (cycleRun cap initCycleState prs).2.2 ≤ j) := by
  have hcnt := cycleRun_count cap prs initCycleState (Nat.zero_le cap)
  refine ⟨?_, ?_, ?_⟩
  · intro hge
    rw [hcnt]
    show min cap (0 + _) = cap
    rw [Nat.zero_add]
    exact Nat.min_eq_left hge
  · intro hlt
    rw [hcnt]
    show min cap (0 + _) = _
    rw [Nat.zero_add]
    exact Nat.min_eq_right (Nat.le_of_lt hlt)
  · intro j hj
    refine cycleRun_pulled cap prs initCycleState j ?_
    show cap ≤ 0 + _
    rw [Nat.zero_add]
    exact hj

/-- C2 (witness): with cap 1 and items [merged, unmerged] the counter
ends at 1, at most 2 items are pulled and at most 1 processed; with cap 5
over the same items the counter ends at the number of merged items, 1. -/
theorem c2_cap_spec_witness :
    (1 ≤ ([⟨0, some 100⟩, ⟨0, none⟩] : List CyclePR).countP cycleExtractable) ∧
    (cycleRun 1 initCycleState [⟨0, some 100⟩, ⟨0, none⟩]).1.count = 1 ∧
    (cycleRun 1 initCycleState [⟨0, some 100⟩, ⟨0, none⟩]).2.1 ≤ 2 ∧
    (cycleRun 1 initCycleState [⟨0, some 100⟩, ⟨0, none⟩]).2.2 ≤ 1 ∧
    (cycleRun 5 initCycleState [⟨0, some 100⟩, ⟨0, none⟩]).1.count = 1 := by
  have h1 := c2_cap_spec 1 [⟨0, some 100⟩, ⟨0, none⟩]
  have h5 := c2_cap_spec 5 [⟨0, some 100⟩, ⟨0, none⟩]
  have hc : (1 : ℕ) ≤ ([⟨0, some 100⟩, ⟨0, none⟩] : List CyclePR).countP cycleExtractable := by
    decide
  have hj : (1 : ℕ) ≤ (([⟨0, some 100⟩, ⟨0, none⟩] : List CyclePR).take 1).countP
      cycleExtractable := by decide
  have hlt : ([⟨0, some 100⟩, ⟨0, none⟩] : List CyclePR).countP cycleExtractable < 5 := by
    decide
  refine ⟨hc, h1.1 hc, (h1.2.2 1 hj).1, (h1.2.2 1 hj).2, ?_⟩
  have := h5.2.1 hlt
  rw [this]
  decide

/-- C3 (counterexample): in the cycle-time metric an empty observation
list makes the summary block silently skip (the `if cycle_times:` guard
fails): the run yields no summary and no error, contradicting the claim
that every metric raises on an empty sample. -/
theorem c3_empty_counterexample :
    cycleSummaryOut [] = Except.ok none ∧
    cycleSummaryOut [] ≠ Except.error PyError.statisticsError ∧
    cycleSummaryOut [] ≠ Except.error PyError.zeroDivisionError := by
  refine ⟨rfl, ?_, ?_⟩ <;> simp [cycleSummaryOut]

/-- C3 (amended): only the review-coverage and comment-depth metrics
perform their division unconditionally and raise `ZeroDivisionError` on
an empty sample; the cycle-time, response-time and iteration-count
metrics guard their summary with a truthiness test and silently skip it
when zero observations were produced. -/
theorem c3_empty_amended :
    cycleSummaryOut [] = Except.ok none ∧
    responseSummaryOut [] = Except.ok none ∧
    iterationSummaryOut [] = Except.ok none ∧
    (∀ k : ℕ, reviewCoverageOut k 0 = Except.error PyError.zeroDivisionError) ∧
    (∀ k : ℕ, commentDepthOut k 0 = Except.error PyError.zeroDivisionError) := by
  exact ⟨rfl, rfl, rfl, fun k => rfl, fun k => rfl⟩

/-- C4: the counting policies differ by metric exactly as stated — the
cycle-time loop increments its capped counter only when the item is
merged (yields an observation), while the iteration-count and
comment-depth loops increment their capped counters for every item
pulled, regardless of extraction outcome. -/
theorem c4_counting_policy (s : CycleState) (pr : CyclePR) :
    (pr.merged_at = none → (cycleStep s pr).count = s.count) ∧
    (∀ m : ℚ, pr.merged_at = some m → (cycleStep s pr).count = s.count + 1) ∧
    (∀ (t : IterationState) (q : IterationPR), (iterationStep t q).count = t.count + 1) ∧
    (∀ (t : DepthState) (q : DepthPR), (depthStep t q).total_prs = t.total_prs + 1) := by
  refine ⟨?_, ?_, ?_, ?_⟩
  · intro h
    exact (cycleStep_of_unmerged s pr h).2
  · intro m h
    exact (cycleStep_of_merged s pr m h).2
  · intro t q
    rw [iterationStep_def]
  · intro t q
    rw [depthStep_def]

/-- C4 (witness): the counting policies evaluated on one unmerged and one
merged concrete item. -/
theorem c4_counting_policy_witness :
    (cycleStep initCycleState ⟨0, none⟩).count = 0 ∧
    (cycleStep initCycleState ⟨0, some 100⟩).count = 1 := by
  exact ⟨(c4_counting_policy initCycleState ⟨0, none⟩).1 rfl,
    (c4_counting_policy initCycleState ⟨0, some 100⟩).2.1 100 rfl⟩

/-- C6: `statistics.median` of a collected sequence equals the
statistical median — the middle element of the unique sorted permutation
for odd length, the average of the two middle elements for even length —
and `statistics.mean` equals the arithmetic mean, sum over count. -/
theorem c6_median_mean (l s : List ℚ) (hp : s.Perm l) (hs : s.Sorted (· ≤ ·))
    (hne : l ≠ []) :
    pyMean l = .ok (l.sum / l.length) ∧
    (l.length % 2 = 1 → pyMedian l = .ok (s.getD (l.length / 2) 0)) ∧
    (l.length % 2 = 0 →
      pyMedian l = .ok ((s.getD (l.length / 2 - 1) 0 + s.getD (l.length / 2) 0) / 2)) := by
  have hsort : pySorted l = s := pySorted_eq l s hp hs
  refine ⟨?_, ?_, ?_⟩
  · rw [pyMean, if_neg hne]
  · intro hodd
    simp only [pyMedian, if_neg hne, hsort]
    rw [if_pos hodd]
  · intro heven
    have hnotodd : ¬ l.length % 2 = 1 := by omega
    simp only [pyMedian, if_neg hne, hsort]
    rw [if_neg hnotodd]

/-- C6 (witness): on the sequence [3, 1, 2, 4] with sorted permutation
[1, 2, 3, 4], the mean is 5/2 and the even-length median is the average
of the two middle values, (2 + 3) / 2 = 5/2. -/
theorem c6_median_mean_witness :
    ([1, 2, 3, 4] : List ℚ).Perm [3, 1, 2, 4] ∧
    ([1, 2, 3, 4] : List ℚ).Sorted (· ≤ ·) ∧
    pyMean [3, 1, 2, 4] = .ok (5 / 2) ∧
    pyMedian [3, 1, 2, 4] = .ok (5 / 2) := by
  have hp : ([1, 2, 3, 4] : List ℚ).Perm [3, 1, 2, 4] := by decide
  have hs : ([1, 2, 3, 4] : List ℚ).Sorted (· ≤ ·) := by decide
  have h := c6_median_mean [3, 1, 2, 4] [1, 2, 3, 4] hp hs (by simp)
  refine ⟨hp, hs, ?_, ?_⟩
  · rw [h.1]
    norm_num
  · rw [h.2.2 (by simp)]
    norm_num

/-- C7: the first response of a response-time item is the earlier of the
first comment's creation time and the first review's submission time
(whichever exists, the earlier when both exist), and the stored
observation for a qualifying item is the elapsed time from creation to
that first response, converted to hours. -/
theorem c7_first_response (pr : ResponsePR) (c r : ℚ) :
    (pr.comments.head? = some c → pr.reviews.head? = some r →
      firstResponse pr = some (min c r)) ∧
    (pr.comments.head? = some c → pr.reviews.head? = none → firstResponse pr = some c) ∧
    (pr.comments.head? = none → pr.reviews.head? = some r → firstResponse pr = some r) ∧
    (pr.comments.head? = none → pr.reviews.head? = none → firstResponse pr = none) ∧
    (∀ (s : ResponseState) (fr : ℚ), firstResponse pr = some fr → pr.created_at < fr →
      (responseStep s pr).response_times =
        s.response_times ++ [(fr - pr.created_at) / 3600]) := by
  refine ⟨?_, ?_, ?_, ?_, ?_⟩
  · intro hc hr
    simp only [firstResponse, hc, hr]
    rcases lt_or_le r c with hlt | hle
    · rw [if_pos hlt, min_eq_right (le_of_lt hlt)]
    · rw [if_neg (not_lt.mpr hle), min_eq_left hle]
  · intro hc hr
    simp only [firstResponse, hc, hr]
  · intro hc hr
    simp only [firstResponse, hc, hr]
  · intro hc hr
    simp only [firstResponse, hc, hr]
  · intro s fr hfr hlt
    rw [responseStep_times]
    simp only [responseObs, hfr]
    rw [if_pos hlt]

/-- C7 (witness): an item created at 0 with first comment at 10 and first
review at 5 gets first response min 10 5 = 5 (the review), and the stored
observation is (5 - 0) / 3600 hours. -/
theorem c7_first_response_witness :
    firstResponse ⟨0, [10], [5]⟩ = some (min 10 5) ∧
    (responseStep initResponseState ⟨0, [10], [5]⟩).response_times =
      [] ++ [((5 : ℚ) - 0) / 3600] := by
  have h := c7_first_response ⟨0, [10], [5]⟩ 10 5
  have hfr : firstResponse ⟨0, [10], [5]⟩ = some 5 := by
    rw [h.1 rfl rfl]
    norm_num
  refine ⟨h.1 rfl rfl, ?_⟩
  exact h.2.2.2.2 initResponseState 5 hfr (by norm_num)

/-- C8: the day-scaled duration statistics reported by the response-time
summary are exactly the hour-valued median and mean divided by 24 — a
pure unit conversion with no rounding (multiplying back by 24 recovers
the hour values exactly). -/
theorem c8_day_scale (l : List ℚ) (md mn : ℚ)
    (hmd : pyMedian l = .ok md) (hmn : pyMean l = .ok mn) :
    responseSummaryOut l = .ok (some (md / 24, mn / 24)) ∧
    (md / 24) * 24 = md ∧ (mn / 24) * 24 = mn := by
  have hne : l ≠ [] := by
    intro h
    rw [h] at hmd
    exact absurd hmd (by simp [pyMedian])
  refine ⟨?_, div_mul_cancel₀ md (by norm_num), div_mul_cancel₀ mn (by norm_num)⟩
  simp only [responseSummaryOut, if_neg hne, hmd, hmn]
  rfl

/-- C8 (witness): for observations [48, 24] hours, median = mean = 36
hours, and the displayed day values are 36 / 24. -/
theorem c8_day_scale_witness :
    pyMedian [48, 24] = .ok 36 ∧ pyMean [48, 24] = .ok 36 ∧
    responseSummaryOut [48, 24] = .ok (some ((36 : ℚ) / 24, (36 : ℚ) / 24)) := by
  have hmd : pyMedian [48, 24] = .ok 36 := by
    simp [pyMedian, pySorted, List.insertionSort, List.orderedInsert]
    norm_num
  have hmn : pyMean [48, 24] = .ok 36 := by
    simp [pyMean]
    norm_num
  exact ⟨hmd, hmn, (c8_day_scale [48, 24] 36 36 hmd hmn).1⟩

/-- C9: a response-time item with no first response, or whose first
response is not strictly later than its creation time, contributes no
observation yet still increments the sample counter by one — consuming
one slot of the max_sample cap. -/
theorem c9_nonqualifying_counts (s : ResponseState) (pr : ResponsePR)
    (h : firstResponse pr = none ∨
      ∃ fr, firstResponse pr = some fr ∧ fr ≤ pr.created_at) :
    (responseStep s pr).response_times = s.response_times ∧
    (responseStep s pr).count = s.count + 1 := by
  refine ⟨?_, responseStep_count s pr⟩
  rw [responseStep_times]
  have hobs : responseObs pr = [] := by
    rcases h with h | ⟨fr, hfr, hle⟩
    · simp [responseObs, h]
    · simp [responseObs, hfr, not_lt.mpr hle]
  rw [hobs, List.append_nil]

/-- C9 (witness): an item with no comments and no reviews leaves the
observation list empty and moves the counter from 0 to 1. -/
theorem c9_nonqualifying_counts_witness :
    (responseStep initResponseState ⟨0, [], []⟩).response_times = [] ∧
    (responseStep initResponseState ⟨0, [], []⟩).count = 0 + 1 := by
  exact c9_nonqualifying_counts initResponseState ⟨0, [], []⟩ (Or.inl rfl)

/-- C10: each cycle-time observation is `(merged_at - created_at).days`,
the duration floor-divided into whole days: the recorded integer d
satisfies d * 86400 ≤ duration < (d + 1) * 86400 in seconds, so any
sub-day remainder is discarded, and a PR merged less than 24 hours after
creation records the observation 0. -/
theorem c10_whole_days (s : CycleState) (pr : CyclePR) (m : ℚ)
    (hm : pr.merged_at = some m) :
    ((cycleStep s pr).cycle_times = s.cycle_times ++ [cycleDays pr.created_at m]) ∧
    ((cycleDays pr.created_at m : ℚ) * 86400 ≤ m - pr.created_at ∧
      m - pr.created_at < ((cycleDays pr.created_at m : ℚ) + 1) * 86400) ∧
    (0 ≤ m - pr.created_at → m - pr.created_at < 86400 →
      cycleDays pr.created_at m = 0) := by
  refine ⟨(cycleStep_of_merged s pr m hm).1, ⟨?_, ?_⟩, ?_⟩
  · have h := Int.floor_le ((m - pr.created_at) / 86400)
    rw [cycleDays]
    calc (⌊(m - pr.created_at) / 86400⌋ : ℚ) * 86400
        ≤ ((m - pr.created_at) / 86400) * 86400 := by
          exact mul_le_mul_of_nonneg_right h (by norm_num)
      _ = m - pr.created_at := by field_simp
  · have h := Int.lt_floor_add_one ((m - pr.created_at) / 86400)
    rw [cycleDays]
    have h2 : (m - pr.created_at) / 86400 * 86400 <
        ((⌊(m - pr.created_at) / 86400⌋ : ℚ) + 1) * 86400 :=
      mul_lt_mul_of_pos_right h (by norm_num)
    calc m - pr.created_at = (m - pr.created_at) / 86400 * 86400 := by field_simp
      _ < _ := h2
  · intro h0 h1
    rw [cycleDays]
    rw [Int.floor_eq_zero_iff]
    constructor
    · exact div_nonneg h0 (by norm_num)
    · rw [div_lt_one (by norm_num)]
      exact h1

/-- C10 (witness): a PR created at 0 and merged at 86399 seconds (one
second under a day) records the observation `cycleDays 0 86399`, which is
0. -/
theorem c10_whole_days_witness :
    (cycleStep initCycleState ⟨0, some 86399⟩).cycle_times =
      [] ++ [cycleDays 0 86399] ∧
    cycleDays 0 86399 = 0 := by
  have h := c10_whole_days initCycleState ⟨0, some 86399⟩ 86399 rfl
  exact ⟨h.1, h.2.2 (by norm_num) (by norm_num)⟩

end PRCycleTime
